import Mathlib

/-!
Shallow embedding of `het_hap_phaser.py` (trio-based haplotype phasing around
an index variant) together with proofs about the claims of its specification.

The embedding follows the source closely:
  * `parse_haplotypes` is the per-variant Trio Phase-Inference Engine
    (source lines 149-303); its per-sample loop body is `phaseSample`.
  * `output_row` is the Population-Frequency Annotator (source lines 102-136).
  * `parse_region` / `vcf_to_hap_rows` model the Region Walker and the full
    left-flank / index-row / right-flank scan (source lines 305-492).

External collaborators (VCF reading, pedigree file, genotype-quality filter,
gnomAD lookup, BED lookup) are modelled as function-valued inputs, exactly at
the interface the source consumes them.
-/

/-- One cell of an output row.  The python code builds rows as heterogeneous
lists of strings, ints, floats and bools; floats are modelled as rationals. -/
inductive Cell where
  | str (s : String)
  | nat (n : Nat)
  | rat (q : Rat)
  | bool (b : Bool)
deriving DecidableEq, Repr

/-- A VCF record as consumed by the engine: `ALLELES` is the REF allele
followed by the ALT alleles; per-sample genotypes are supplied separately. -/
structure Variant where
  chrom : String
  pos : Nat
  id : String
  alleles : List String
deriving DecidableEq, Repr

/-- `var.REF` of the source: the first allele. -/
def Variant.REF (v : Variant) : String := v.alleles.getD 0 ""

/-- `var.ALT` of the source for a biallelic record: the second allele. -/
def Variant.ALTstr (v : Variant) : String := v.alleles.getD 1 ""

/-- The inputs `parse_haplotypes` consumes for one variant: the record itself,
the parsed genotypes (`gts['GT']`, a pair of allele indices with `none` for
missing), the admissibility predicate `gt_filter.gt_is_ok` specialised to
these genotypes, and the pedigree's father/mother lookups. -/
structure EngineIn where
  var : Variant
  gts : String → List (Option Nat)
  ok : String → Nat → Bool
  father : String → Option String
  mother : String → Option String

/-- `var.ALLELES[x]` for a genotype entry; a `none` entry would raise a
`TypeError` in python, the placeholder string marks that unreachable case. -/
def getAllele (als : List String) : Option Nat → String
  | some i => als.getD i "?"
  | none => "None"

/-- `var.ALLELES[i]` for a plain allele index. -/
def getNat (als : List String) (i : Nat) : String := als.getD i "?"

/-- `sgt[i]` on a genotype tuple. -/
def gtAt (sgt : List (Option Nat)) (i : Nat) : Option Nat := (sgt.get? i).getD none

/-- `len(set(sgt))`. -/
def uniqCount (sgt : List (Option Nat)) : Nat := sgt.dedup.length

/-- `max(...)` over a list of allele indices (python's `max` on a nonempty
tuple of ints; `0` for the empty list, where python would raise). -/
def maxList (l : List Nat) : Nat := l.foldl max 0

/-- `str.join("|", (var.ALLELES[x] for x in sgt))`. -/
def pipeJoin (als : List String) (sgt : List (Option Nat)) : String :=
  String.intercalate "|" (sgt.map (getAllele als))

/-- `str.join("/", (var.ALLELES[x] for x in sgt))`. -/
def slashJoin (als : List String) (sgt : List (Option Nat)) : String :=
  String.intercalate "/" (sgt.map (getAllele als))

/-- Source lines 195-202: fetch a parent's genotype; it is treated as
unavailable (`()`) when the parent is absent, the genotype has a missing
entry, or the strongest allele call fails the admissibility filter. -/
def parentGT (gts : String → List (Option Nat)) (ok : String → Nat → Bool) :
    Option String → List Nat
  | none => []
  | some p =>
    let pgt := gts p
    if (none : Option Nat) ∈ pgt then []
    else if ok p (maxList pgt.reduceOption) then pgt.reduceOption else []

/-- Source lines 210-214: the father's transmitted allele.  `pat` is set to
`1` when the father carries the ALT and either lacks the REF or the mother's
genotype is usable and lacks the ALT; `pat` is set to `0` only when the
father's genotype is usable and lacks the ALT; otherwise it stays `None`. -/
def patFrom (fgt mgt : List Nat) : Option Nat :=
  if 1 ∈ fgt then
    if 0 ∉ fgt ∨ (1 ∉ mgt ∧ mgt ≠ []) then some 1 else none
  else if fgt ≠ [] then some 0 else none

/-- Source lines 215-219: the mother's transmitted allele, mirror image of
`patFrom`. -/
def matFrom (fgt mgt : List Nat) : Option Nat :=
  if 1 ∈ mgt then
    if 0 ∉ mgt ∨ (1 ∉ fgt ∧ fgt ≠ []) then some 1 else none
  else if mgt ≠ [] then some 0 else none

/-- Source lines 220-228: combine the two sides; when exactly one side is
determined the other is inferred as `int(side == 0)`, i.e. its complement. -/
def resolvePatMat (fgt mgt : List Nat) : Option (Nat × Nat) :=
  match patFrom fgt mgt, matFrom fgt mgt with
  | none, none => none
  | some p, none => some (p, if p = 0 then 1 else 0)
  | none, some m => some (if m = 0 then 1 else 0, m)
  | some p, some m => some (p, m)

/-- Everything one iteration of the engine's per-sample loop (source lines
170-247) contributes to the surrounding state. -/
structure SampleStep where
  call : String
  pair : String × String
  inPhase : Option Nat
  phasedInfo : Option (Nat × Nat)
  isNoCall : Bool
  warned : Bool
  revOut : Bool
  hasAlt : Bool
deriving Repr

/-- Lines 173-175 / 179-181: an inadmissible or fully missing genotype. -/
def noCallStep (revIn : Bool) : SampleStep :=
  ⟨"NoCall", ("NoCall", "NoCall"), none, none, true, false, revIn, false⟩

/-- Lines 185-189: a homozygous sample; its in-phase allele is `sgt[0]`. -/
def homStep (als : List String) (sgt : List (Option Nat)) (revIn : Bool) : SampleStep :=
  ⟨pipeJoin als sgt, (getAllele als (gtAt sgt 0), getAllele als (gtAt sgt 1)),
   gtAt sgt 0, none, false, false, revIn, sgt.contains (some 1)⟩

/-- Lines 203-206 / 220-224: a heterozygous sample that cannot be phased;
the slash-joined genotype is reported in both allele slots. -/
def unphasedStep (als : List String) (sgt : List (Option Nat)) (revIn : Bool) : SampleStep :=
  let c := slashJoin als sgt
  ⟨c, (c, c), none, none, false, false, revIn, sgt.contains (some 1)⟩

/-- Lines 229-236: both sides determined and equal - apparent de novo; the
sample falls back to the slash representation and a warning is logged. -/
def denovoStep (als : List String) (sgt : List (Option Nat)) (revIn : Bool) : SampleStep :=
  let c := slashJoin als sgt
  ⟨c, (c, c), none, none, false, true, revIn, sgt.contains (some 1)⟩

/-- Lines 240-247: a phased het sample; the reported order and the in-phase
allele follow the (possibly just-updated) orientation flag `revOut`. -/
def phasedStep (als : List String) (sgt : List (Option Nat)) (p m : Nat) (revOut : Bool) :
    SampleStep :=
  ⟨if revOut then getNat als m ++ "|" ++ getNat als p else getNat als p ++ "|" ++ getNat als m,
   if revOut then (getNat als m, getNat als p) else (getNat als p, getNat als m),
   some (if revOut then m else p), some (p, m), false, false, revOut,
   sgt.contains (some 1)⟩

/-- Lines 203-247: the heterozygous branch of the per-sample loop. -/
def hetStep (als : List String) (sgt : List (Option Nat)) (fgt mgt : List Nat)
    (indexVar revIn : Bool) : SampleStep :=
  if fgt = [] ∧ mgt = [] then unphasedStep als sgt revIn
  else
    match resolvePatMat fgt mgt with
    | none => unphasedStep als sgt revIn
    | some (p, m) =>
      if m = p then denovoStep als sgt revIn
      else phasedStep als sgt p m (if indexVar ∧ m = 1 ∧ p = 0 then true else revIn)

/-- One iteration of the engine's per-sample loop (source lines 170-247),
given the current value `revIn` of the sample's orientation flag. -/
def phaseSample (e : EngineIn) (indexVar : Bool) (revIn : Bool) (s : String) : SampleStep :=
  if e.ok s 0 = true ∧ e.ok s 1 = true then
    let sgt := e.gts s
    if uniqCount sgt = 1 ∧ (none : Option Nat) ∈ sgt then noCallStep revIn
    else if uniqCount sgt = 1 then homStep e.var.alleles sgt revIn
    else hetStep e.var.alleles sgt (parentGT e.gts e.ok (e.father s))
      (parentGT e.gts e.ok (e.mother s)) indexVar revIn
  else noCallStep revIn

/-- `dict` insert used for `allele_in_phase[s] = a`: update in place when the
key exists, append otherwise (python dicts keep insertion order). -/
def dinsert (l : List (String × Nat)) (s : String) (a : Nat) : List (String × Nat) :=
  match l with
  | [] => [(s, a)]
  | (k, v) :: t => if k = s then (k, a) :: t else (k, v) :: dinsert t s a

/-- `s in allele_in_phase`. -/
def dmemB (l : List (String × Nat)) (s : String) : Bool := l.any (fun kv => kv.1 == s)

/-- `set.add` for `sample_no_calls`. -/
def sinsert (l : List String) (s : String) : List String :=
  if s ∈ l then l else l ++ [s]

/-- The mutable state of the engine's per-sample loop: the `calls` and
`alleles` accumulators, `sample_with_alt`, `allele_in_phase`,
`sample_no_calls`, the (shared, scan-scoped) `reverse_allele_order` map and
the number of warnings logged so far. -/
structure LoopState where
  calls : List String
  pairs : List (String × String)
  sampleWithAlt : Bool
  alleleInPhase : List (String × Nat)
  sampleNoCalls : List String
  rev : String → Bool
  warnings : Nat

/-- Fold one sample's `SampleStep` into the loop state. -/
def applyStep (st : LoopState) (s : String) (stp : SampleStep) : LoopState :=
  { calls := st.calls ++ [stp.call]
    pairs := st.pairs ++ [stp.pair]
    sampleWithAlt := st.sampleWithAlt || stp.hasAlt
    alleleInPhase :=
      match stp.inPhase with
      | some a => dinsert st.alleleInPhase s a
      | none => st.alleleInPhase
    sampleNoCalls := if stp.isNoCall then sinsert st.sampleNoCalls s else st.sampleNoCalls
    rev := fun s' => if s' = s then stp.revOut else st.rev s'
    warnings := st.warnings + (if stp.warned then 1 else 0) }

/-- Initial loop state (`reverse_allele_order` is passed in from the scan). -/
def initState (rev : String → Bool) : LoopState :=
  ⟨[], [], false, [], [], rev, 0⟩

/-- The engine's whole per-sample loop (source lines 170-247). -/
def engineState (e : EngineIn) (samples : List String) (indexVar : Bool)
    (rev : String → Bool) : LoopState :=
  samples.foldl (fun st s => applyStep st s (phaseSample e indexVar (st.rev s) s))
    (initState rev)

/-- `phased = list(allele_in_phase.values())`. -/
def phasedOf (st : LoopState) : List Nat := st.alleleInPhase.map Prod.snd

/-- `ref_phase = phased.count(0)`. -/
def refPhase (st : LoopState) : Nat := (phasedOf st).count 0

/-- `alt_phase = len(phased) - ref_phase`. -/
def altPhase (st : LoopState) : Nat := (phasedOf st).length - refPhase st

/-- Source lines 264-267: the dominant phase allele, `None` on a tie. -/
def pAlleleOf (st : LoopState) : Option Nat :=
  if altPhase st < refPhase st then some 0
  else if refPhase st < altPhase st then some 1
  else none

/-- Source line 268 (0 when no sample was phased, line 258). -/
def nInPhaseOf (st : LoopState) : Nat :=
  if phasedOf st = [] then 0 else max (refPhase st) (altPhase st)

/-- Source lines 270-274: does an unphased sample add to `n_compat`? -/
def compatPred (e : EngineIn) (st : LoopState) (s : String) : Bool :=
  !(dmemB st.alleleInPhase s) &&
    (match pAlleleOf st with
     | some p => (e.gts s).contains (some p) || st.sampleNoCalls.contains s
     | none => false)

/-- `n_compat`: `n_in_phase` plus the compatible unphased samples. -/
def nCompatOf (e : EngineIn) (st : LoopState) (samples : List String) : Nat :=
  nInPhaseOf st + samples.countP (compatPred e st)

/-- The background genotype tally `counts` (source line 165). -/
structure GtCounts where
  c00 : Nat
  c01 : Nat
  c11 : Nat
deriving Repr, DecidableEq

/-- `counts[str.join("/", sorted(gt))] += 1`; any sorted genotype other than
the three dict keys would raise a `KeyError` in python and is left alone. -/
def countGt (c : GtCounts) (sg : List Nat) : GtCounts :=
  if sg = [0, 0] then { c with c00 := c.c00 + 1 }
  else if sg = [0, 1] then { c with c01 := c.c01 + 1 }
  else if sg = [1, 1] then { c with c11 := c.c11 + 1 }
  else c

/-- Ascending insertion used to model python's `sorted`. -/
def insNat (a : Nat) : List Nat → List Nat
  | [] => [a]
  | b :: t => if a ≤ b then a :: b :: t else b :: insNat a t

/-- python's `sorted` on a list of allele indices. -/
def sortNat (l : List Nat) : List Nat := l.foldr insNat []

/-- Source lines 252-256: tally the called, admissible unrelated samples. -/
def unrelCounts (e : EngineIn) (unrelateds : List String) : GtCounts :=
  unrelateds.foldl
    (fun c u =>
      let g := e.gts u
      if (none : Option Nat) ∉ g ∧ e.ok u (maxList g.reduceOption) = true then
        countGt c (sortNat g.reduceOption)
      else c)
    ⟨0, 0, 0⟩

/-- The row `parse_haplotypes` returns, as a structure; `mainRow` and
`fullRow` below render it into the flat list the python code builds. -/
structure HapResult where
  chrom : String
  pos : Nat
  id : String
  ref : String
  alt : String
  hap : String
  nInPhase : Nat
  nCompat : Nat
  calls : List String
  pairs : List (String × String)
  an : Nat
  af : Rat
  informative : Bool
  allPhased : Bool
  nNoCalls : Nat
deriving Repr, DecidableEq

/-- Source lines 275-303: assemble the row from the final loop state. -/
def mkResult (e : EngineIn) (samples unrelateds : List String) (st : LoopState) : HapResult :=
  let cnt := unrelCounts e unrelateds
  let an := 2 * (cnt.c00 + cnt.c01 + cnt.c11)
  let ac := cnt.c01 + 2 * cnt.c11
  { chrom := e.var.chrom
    pos := e.var.pos
    id := e.var.id
    ref := e.var.REF
    alt := e.var.ALTstr
    hap :=
      match pAlleleOf st with
      | some p => if nInPhaseOf st ≠ 0 then getNat e.var.alleles p else "?"
      | none => "?"
    nInPhase := nInPhaseOf st
    nCompat := nCompatOf e st samples
    calls := st.calls
    pairs := st.pairs
    an := an
    af := if an = 0 then 0 else (ac : Rat) / (an : Rat)
    informative := !(phasedOf st).isEmpty
    allPhased := (phasedOf st).length == samples.length
    nNoCalls := st.sampleNoCalls.length }

/-- What `parse_haplotypes` hands back: the row (or `None`), plus the
`reverse_allele_order` map and warning count it may have touched. -/
structure EngineOut where
  row : Option HapResult
  rev : String → Bool
  warnings : Nat

/-- The Trio Phase-Inference Engine, source lines 149-303.  Returns `None`
for non-biallelic records, records whose two alleles differ in length, and
records where no sample of interest carries the ALT admissibly. -/
def parse_haplotypes (e : EngineIn) (samples unrelateds : List String)
    (outputAlleles indexVar : Bool) (rev : String → Bool) : EngineOut :=
  if e.var.alleles.length ≠ 2 then ⟨none, rev, 0⟩
  else if (e.var.alleles.getD 0 "").length ≠ (e.var.alleles.getD 1 "").length then
    ⟨none, rev, 0⟩
  else if (engineState e samples indexVar rev).sampleWithAlt = false then
    ⟨none, (engineState e samples indexVar rev).rev,
     (engineState e samples indexVar rev).warnings⟩
  else
    ⟨some (mkResult e samples unrelateds (engineState e samples indexVar rev)),
     (engineState e samples indexVar rev).rev,
     (engineState e samples indexVar rev).warnings⟩

/-- Render the row without its three trailing bookkeeping fields, i.e. what
is left after `parse_region` pops them (or what `vcf_to_hap` writes for the
index row).  `outputAlleles` selects two columns per sample. -/
def mainRow (outputAlleles : Bool) (r : HapResult) : List Cell :=
  [Cell.str r.chrom, Cell.nat r.pos, Cell.str r.id, Cell.str r.ref, Cell.str r.alt,
   Cell.str r.hap, Cell.nat r.nInPhase, Cell.nat r.nCompat]
  ++ (if outputAlleles then (r.pairs.map (fun pr => [Cell.str pr.1, Cell.str pr.2])).join
      else r.calls.map Cell.str)
  ++ [Cell.nat r.an, Cell.rat r.af]

/-- The full row as returned by the python engine, with the informative /
all-phased / no-call-count trailer. -/
def fullRow (outputAlleles : Bool) (r : HapResult) : List Cell :=
  mainRow outputAlleles r
    ++ [Cell.bool r.informative, Cell.bool r.allPhased, Cell.nat r.nNoCalls]

/-- One gnomAD hit as `search_gnomad` returns it (source lines 138-147): the
overall AF INFO field (a string, compared as a string by `output_row`), its
numeric value (what python's `float(af)` parses), the population-specific AF
string and the population label. -/
structure AFRecord where
  afStr : String
  afVal : Rat
  popAF : String
  popLabel : String
deriving Repr, DecidableEq

/-- The three fields `row.extend([max_af, max_popmax, max_pop])` appends. -/
def extFields : Option AFRecord → List Cell
  | none => [Cell.str ".", Cell.str ".", Cell.str "."]
  | some g => [Cell.str g.afStr, Cell.str g.popAF, Cell.str g.popLabel]

/-- Source lines 131-133: keep the hit whose overall-AF *string* is larger
(`max_af < af` is a python string comparison). -/
def updBest (best : Option AFRecord) : Option AFRecord → Option AFRecord
  | none => best
  | some g =>
    match best with
    | none => some g
    | some b => if b.afStr < g.afStr then some g else best

/-- `row[5] == var.REF`: is the haplotype allele the reference allele? -/
def rowIsRef (row : List Cell) (v : Variant) : Bool :=
  decide (row.get? 5 = some (Cell.str v.REF))

/-- `min_af is not None and row[7] == len(samples)`: is the frequency filter
active for this row? -/
def filterGate (row : List Cell) (minAF : Option Rat) (nSamples : Option Nat) : Bool :=
  minAF.isSome &&
    (match nSamples, row.get? 7 with
     | some nn, some (Cell.nat k) => k == nn
     | _, _ => false)

/-- The reader loop of `output_row` (source lines 110-133): per reader, apply
the minimum-other-allele-frequency filter (returning `none` to model
`return 0`), then update the running maximum.  A `none` lookup models a
variant absent from that database (`af == '.'`). -/
def gnomadScan (isRef filterOn : Bool) (minAF : Rat) :
    List (Option AFRecord) → Option AFRecord → Option (Option AFRecord)
  | [], best => some best
  | l :: rest, best =>
    if filterOn then
      match l with
      | none =>
        if isRef then none
        else if (1 : Rat) < minAF then none
        else gnomadScan isRef filterOn minAF rest (updBest best l)
      | some g =>
        if (if isRef then g.afVal else 1 - g.afVal) < minAF then none
        else gnomadScan isRef filterOn minAF rest (updBest best l)
    else gnomadScan isRef filterOn minAF rest (updBest best l)

/-- The Population-Frequency Annotator `output_row` (source lines 102-136).
`lookups` holds one `search_gnomad` result per configured reader; the empty
list models no readers (`if gnomad_readers:` false), where the row is written
unchanged.  `none` models `return 0` (row suppressed); `some row'` models the
row actually written. -/
def output_row (row : List Cell) (v : Variant) (lookups : List (Option AFRecord))
    (minAF : Option Rat) (nSamples : Option Nat) : Option (List Cell) :=
  if lookups = [] then some row
  else
    match gnomadScan (rowIsRef row v) (filterGate row minAF nSamples)
        (minAF.getD 0) lookups none with
    | none => none
    | some best => some (row ++ extFields best)

/-- Scan-level configuration and collaborators for the Region Walker: the
samples of interest, the unrelated background samples, the per-variant
genotypes and admissibility filter, the pedigree, the output policies and
the gnomAD / BED collaborators. -/
structure WalkCfg where
  samples : List String
  unrelateds : List String
  gts : Variant → String → List (Option Nat)
  ok : Variant → String → Nat → Bool
  father : String → Option String
  mother : String → Option String
  outputAlleles : Bool
  informativeOnly : Bool
  phasedInAll : Bool
  maxNoCalls : Option Nat
  minAF : Option Rat
  lookups : Variant → List (Option AFRecord)
  avoid : Variant → Bool

/-- Assemble the engine input for one variant. -/
def engineFor (cfg : WalkCfg) (v : Variant) : EngineIn :=
  ⟨v, cfg.gts v, cfg.ok v, cfg.father, cfg.mother⟩

/-- What one flanking variant contributes: the row written (if any) and the
threaded `reverse_allele_order` map. -/
structure StepOut where
  out : Option (List Cell)
  rev : String → Bool

/-- The per-variant body of `parse_region` (source lines 455-491): BED
exclusion, engine call with `index_var=False`, the no-call ceiling, the
phased-in-all / informative-only policies, then `output_row`. -/
def processOne (cfg : WalkCfg) (rev : String → Bool) (v : Variant) : StepOut :=
  if cfg.avoid v then ⟨none, rev⟩
  else
    let eo := parse_haplotypes (engineFor cfg v) cfg.samples cfg.unrelateds
      cfg.outputAlleles false rev
    match eo.row with
    | none => ⟨none, eo.rev⟩
    | some r =>
      if (match cfg.maxNoCalls with | some mx => decide (mx < r.nNoCalls) | none => false) then
        ⟨none, eo.rev⟩
      else if cfg.phasedInAll then
        if r.allPhased then
          ⟨output_row (mainRow cfg.outputAlleles r) v (cfg.lookups v) cfg.minAF
            (some cfg.samples.length), eo.rev⟩
        else ⟨none, eo.rev⟩
      else if cfg.informativeOnly then
        if r.informative then
          ⟨output_row (mainRow cfg.outputAlleles r) v (cfg.lookups v) cfg.minAF
            (some cfg.samples.length), eo.rev⟩
        else ⟨none, eo.rev⟩
      else
        ⟨output_row (mainRow cfg.outputAlleles r) v (cfg.lookups v) cfg.minAF
          (some cfg.samples.length), eo.rev⟩

/-- The Region Walker `parse_region` (source lines 441-492) over the list of
variants the record source yields for the region, in order; returns the rows
written and the threaded orientation map. -/
def parse_region (cfg : WalkCfg) : List Variant → (String → Bool) →
    List (List Cell) × (String → Bool)
  | [], rev => ([], rev)
  | v :: vs, rev =>
    let so := processOne cfg rev v
    let rest := parse_region cfg vs so.rev
    (so.out.toList ++ rest.1, rest.2)

/-- The fresh `reverse_allele_order = defaultdict(bool)` of a scan. -/
def revInit : String → Bool := fun _ => false

/-- The index-variant bootstrap call (source lines 401-403): the engine runs
once with `index_var=True` (and default `output_alleles=False`) on the fresh
orientation map. -/
def indexOut (cfg : WalkCfg) (idxVar : Variant) : EngineOut :=
  parse_haplotypes (engineFor cfg idxVar) cfg.samples cfg.unrelateds false true revInit

/-- `{r with id := r.id ++ "|INDEX"}`: source line 404. -/
def withIndexId (r : HapResult) : HapResult := { r with id := r.id ++ "|INDEX" }

/-- The left-flank walk (source lines 418-426). -/
def leftStage (cfg : WalkCfg) (idxVar : Variant) (leftVars : List Variant) :
    List (List Cell) × (String → Bool) :=
  parse_region cfg leftVars (indexOut cfg idxVar).rev

/-- The right-flank walk (source lines 429-437), run after the left flank. -/
def rightStage (cfg : WalkCfg) (idxVar : Variant) (leftVars rightVars : List Variant) :
    List (List Cell) × (String → Bool) :=
  parse_region cfg rightVars (leftStage cfg idxVar leftVars).2

/-- The rows the full scan `vcf_to_hap` writes (source lines 401-437): index
engine call first (seeding the orientation map), then the left flank's rows,
then the index row itself (id suffixed `|INDEX`, written through `output_row`
with `min_af=None`), then the right flank's rows.  When the index engine call
returns `None` the python code raises before writing anything. -/
def vcf_to_hap_rows (cfg : WalkCfg) (idxVar : Variant)
    (leftVars rightVars : List Variant) : List (List Cell) :=
  match (indexOut cfg idxVar).row with
  | none => []
  | some r =>
    (leftStage cfg idxVar leftVars).1
      ++ (output_row (mainRow false (withIndexId r)) idxVar (cfg.lookups idxVar)
            none none).toList
      ++ (rightStage cfg idxVar leftVars rightVars).1

/-- `row[1]`, the position column of a written row. -/
def rowPos (row : List Cell) : Nat :=
  match row.get? 1 with
  | some (Cell.nat n) => n
  | _ => 0

/-- Modelled from the spec: the spec's own per-parent transmitted-allele rule
(section 4.1 step 5), used to compare the claimed rule against `patFrom` /
`matFrom`.  "Parent genotype contains the alternate allele (1) AND (does not
contain the reference allele (0), OR the other parent's genotype, if usable,
does not contain the alternate): assign alternate.  Else if the parent's
genotype is usable: assign reference." -/
def specTransmitted (pgt ogt : List Nat) : Option Nat :=
  if pgt = [] then none
  else if 1 ∈ pgt ∧ (0 ∉ pgt ∨ (ogt ≠ [] → 1 ∉ ogt)) then some 1
  else some 0

lemma patFrom_range (fgt mgt : List Nat) (a : Nat) (h : patFrom fgt mgt = some a) :
    a = 0 ∨ a = 1 := by
  unfold patFrom at h
  split_ifs at h <;> simp_all

lemma matFrom_range (fgt mgt : List Nat) (a : Nat) (h : matFrom fgt mgt = some a) :
    a = 0 ∨ a = 1 := by
  unfold matFrom at h
  split_ifs at h <;> simp_all

lemma resolvePatMat_nil_nil : resolvePatMat [] [] = none := rfl

/-- C1: counterexample.  With father genotype 0/1 and mother genotype 0/1
(both usable), the spec's per-parent rule assigns the father the reference
allele, but the code leaves the father's side undetermined (`pat` stays
`None`), so a usable parent's side is not always assigned. -/
theorem C1_counterexample :
    specTransmitted [0, 1] [0, 1] = some 0 ∧ patFrom [0, 1] [0, 1] = none := by
  constructor <;> decide

/-- C1 (amended): per parent, the code assigns the alternate allele when that
parent's genotype contains the alternate AND (does not contain the reference
OR the other parent's genotype is usable and lacks the alternate); it assigns
the reference allele only when the parent's genotype is usable and does not
contain the alternate; when the parent carries both alleles and the
alternate-condition fails, the side is left undetermined. -/
theorem C1_amended_rule : ∀ fgt mgt : List Nat,
    (1 ∈ fgt → (0 ∉ fgt ∨ (mgt ≠ [] ∧ 1 ∉ mgt)) → patFrom fgt mgt = some 1) ∧
    (fgt ≠ [] → 1 ∉ fgt → patFrom fgt mgt = some 0) ∧
    (1 ∈ fgt → 0 ∈ fgt → (mgt = [] ∨ 1 ∈ mgt) → patFrom fgt mgt = none) ∧
    (1 ∈ mgt → (0 ∉ mgt ∨ (fgt ≠ [] ∧ 1 ∉ fgt)) → matFrom fgt mgt = some 1) ∧
    (mgt ≠ [] → 1 ∉ mgt → matFrom fgt mgt = some 0) ∧
    (1 ∈ mgt → 0 ∈ mgt → (fgt = [] ∨ 1 ∈ fgt) → matFrom fgt mgt = none) := by
  intro fgt mgt
  unfold patFrom matFrom
  refine ⟨?_, ?_, ?_, ?_, ?_, ?_⟩ <;> intros <;> split_ifs <;> first | rfl | tauto

theorem C1_amended_witness :
    patFrom [1, 1] [0, 0] = some 1 ∧ patFrom [0, 0] [1, 1] = some 0 ∧
    patFrom [0, 1] [0, 1] = none ∧ matFrom [0, 0] [1, 1] = some 1 ∧
    matFrom [1, 1] [0, 0] = some 0 ∧ matFrom [0, 1] [0, 1] = none :=
  ⟨(C1_amended_rule [1, 1] [0, 0]).1 (by decide) (by decide),
   (C1_amended_rule [0, 0] [1, 1]).2.1 (by decide) (by decide),
   (C1_amended_rule [0, 1] [0, 1]).2.2.1 (by decide) (by decide) (by decide),
   (C1_amended_rule [0, 0] [1, 1]).2.2.2.1 (by decide) (by decide),
   (C1_amended_rule [1, 1] [0, 0]).2.2.2.2.1 (by decide) (by decide),
   (C1_amended_rule [0, 1] [0, 1]).2.2.2.2.2 (by decide) (by decide) (by decide)⟩

/-- C5: when exactly one parental side's transmitted allele is determined,
the other side is inferred as its complement, and the resulting (paternal,
maternal) pair is one reference and one alternate allele, explaining the
sample's heterozygous genotype. -/
theorem C5_complement_inference : ∀ (fgt mgt : List Nat) (a : Nat),
    (patFrom fgt mgt = some a → matFrom fgt mgt = none →
      ∃ b, resolvePatMat fgt mgt = some (a, b) ∧ a ≠ b ∧
        ((a = 0 ∧ b = 1) ∨ (a = 1 ∧ b = 0))) ∧
    (matFrom fgt mgt = some a → patFrom fgt mgt = none →
      ∃ b, resolvePatMat fgt mgt = some (b, a) ∧ a ≠ b ∧
        ((b = 0 ∧ a = 1) ∨ (b = 1 ∧ a = 0))) := by
  intro fgt mgt a
  constructor
  · intro hp hm
    refine ⟨if a = 0 then 1 else 0, ?_, ?_, ?_⟩
    · unfold resolvePatMat
      rw [hp, hm]
    · rcases patFrom_range fgt mgt a hp with h | h <;> simp [h]
    · rcases patFrom_range fgt mgt a hp with h | h <;> simp [h]
  · intro hm hp
    refine ⟨if a = 0 then 1 else 0, ?_, ?_, ?_⟩
    · unfold resolvePatMat
      rw [hp, hm]
    · rcases matFrom_range fgt mgt a hm with h | h <;> simp [h]
    · rcases matFrom_range fgt mgt a hm with h | h <;> simp [h]

theorem C5_witness :
    ∃ b, resolvePatMat [1, 1] [] = some (1, b) ∧ (1 : Nat) ≠ b ∧
      (((1 : Nat) = 0 ∧ b = 1) ∨ ((1 : Nat) = 1 ∧ b = 0)) :=
  (C5_complement_inference [1, 1] [] 1).1 (by decide) (by decide)

/-- C4: a heterozygous sample whose resolved paternal and maternal alleles
are determined and equal is reported unphased with the slash-joined genotype
string in both allele slots, is excluded from the phase tallies
(`allele_in_phase` untouched), and increments the warning count by exactly
one. -/
theorem C4_denovo (e : EngineIn) (indexVar revIn : Bool) (s : String) (a : Nat)
    (hok : e.ok s 0 = true ∧ e.ok s 1 = true)
    (hhet : uniqCount (e.gts s) ≠ 1)
    (hres : resolvePatMat (parentGT e.gts e.ok (e.father s))
      (parentGT e.gts e.ok (e.mother s)) = some (a, a)) :
    (phaseSample e indexVar revIn s).call = slashJoin e.var.alleles (e.gts s) ∧
    (phaseSample e indexVar revIn s).pair =
      (slashJoin e.var.alleles (e.gts s), slashJoin e.var.alleles (e.gts s)) ∧
    (phaseSample e indexVar revIn s).inPhase = none ∧
    (phaseSample e indexVar revIn s).warned = true ∧
    (∀ st : LoopState,
      (applyStep st s (phaseSample e indexVar revIn s)).warnings = st.warnings + 1 ∧
      (applyStep st s (phaseSample e indexVar revIn s)).alleleInPhase = st.alleleInPhase) := by
  have hmain : phaseSample e indexVar revIn s = denovoStep e.var.alleles (e.gts s) revIn := by
    have h2 : ¬(uniqCount (e.gts s) = 1 ∧ (none : Option Nat) ∈ e.gts s) := by
      intro h
      exact hhet h.1
    have hnn : ¬(parentGT e.gts e.ok (e.father s) = [] ∧
        parentGT e.gts e.ok (e.mother s) = []) := by
      rintro ⟨h1, h2⟩
      rw [h1, h2, resolvePatMat_nil_nil] at hres
      exact Option.noConfusion hres
    simp only [phaseSample, hetStep, if_pos hok, if_neg h2, if_neg hhet, if_neg hnn, hres,
      if_pos rfl]
    simp
  refine ⟨?_, ?_, ?_, ?_, fun st => ⟨?_, ?_⟩⟩ <;>
    simp [hmain, denovoStep, applyStep]

def gts4 : String → List (Option Nat) := fun x =>
  if x = "c" then [some 0, some 1] else [some 1, some 1]

def E4 : EngineIn :=
  ⟨⟨"1", 100, "rs1", ["A", "G"]⟩, gts4, fun _ _ => true,
   fun x => if x = "c" then some "d" else none,
   fun x => if x = "c" then some "m" else none⟩

theorem C4_witness :
    (phaseSample E4 false false "c").warned = true ∧
    (phaseSample E4 false false "c").inPhase = none ∧
    (phaseSample E4 false false "c").call = slashJoin E4.var.alleles (E4.gts "c") := by
  have h := C4_denovo E4 false false "c" 1 (by constructor <;> rfl) (by decide) (by decide)
  exact ⟨h.2.2.2.1, h.2.2.1, h.1⟩

lemma hetStep_revOut_false (als : List String) (sgt : List (Option Nat))
    (fgt mgt : List Nat) (r : Bool) :
    (hetStep als sgt fgt mgt false r).revOut = r := by
  unfold hetStep
  split_ifs with h1
  · rfl
  · cases hres : resolvePatMat fgt mgt with
    | none => rfl
    | some pm =>
      obtain ⟨p, m⟩ := pm
      by_cases hmp : m = p
      · simp [hmp, denovoStep]
      · simp [hmp, phasedStep]

lemma phaseSample_revOut_false (e : EngineIn) (s : String) (r : Bool) :
    (phaseSample e false r s).revOut = r := by
  simp only [phaseSample]
  split_ifs <;> first | rfl | apply hetStep_revOut_false

lemma applyStep_rev_eq (st : LoopState) (s : String) (stp : SampleStep)
    (h : stp.revOut = st.rev s) : (applyStep st s stp).rev = st.rev := by
  funext s'
  simp only [applyStep]
  split_ifs with hs
  · rw [h, hs]
  · rfl

lemma engineState_rev_false (e : EngineIn) (samples : List String) (rev : String → Bool) :
    (engineState e samples false rev).rev = rev := by
  unfold engineState
  suffices h : ∀ st : LoopState,
      (samples.foldl (fun st s => applyStep st s (phaseSample e false (st.rev s) s)) st).rev
        = st.rev by
    exact h (initState rev)
  intro st
  induction samples generalizing st with
  | nil => rfl
  | cons a t ih =>
    simp only [List.foldl_cons]
    rw [ih, applyStep_rev_eq]
    exact phaseSample_revOut_false e a (st.rev a)

lemma parse_haplotypes_rev_false (e : EngineIn) (samples unrelateds : List String)
    (oA : Bool) (rev : String → Bool) :
    (parse_haplotypes e samples unrelateds oA false rev).rev = rev := by
  simp only [parse_haplotypes]
  split_ifs <;> first | rfl | exact engineState_rev_false e samples rev

lemma processOne_rev (cfg : WalkCfg) (rev : String → Bool) (v : Variant) :
    (processOne cfg rev v).rev = rev := by
  simp only [processOne]
  by_cases h : cfg.avoid v = true
  · rw [if_pos h]
  · rw [if_neg h]
    cases (parse_haplotypes (engineFor cfg v) cfg.samples cfg.unrelateds
        cfg.outputAlleles false rev).row with
    | none => exact parse_haplotypes_rev_false ..
    | some r =>
      dsimp only
      split_ifs <;> exact parse_haplotypes_rev_false ..

lemma parse_region_rev (cfg : WalkCfg) (vars : List Variant) (rev : String → Bool) :
    (parse_region cfg vars rev).2 = rev := by
  induction vars generalizing rev with
  | nil => rfl
  | cons v t ih =>
    simp only [parse_region]
    rw [ih, processOne_rev]

lemma hetStep_phased (als : List String) (sgt : List (Option Nat)) (fgt mgt : List Nat)
    (ix r : Bool) (p m : Nat) (hres : resolvePatMat fgt mgt = some (p, m)) (hne : m ≠ p) :
    hetStep als sgt fgt mgt ix r
      = phasedStep als sgt p m (if ix ∧ m = 1 ∧ p = 0 then true else r) := by
  have hnn : ¬(fgt = [] ∧ mgt = []) := by
    rintro ⟨h1, h2⟩
    rw [h1, h2, resolvePatMat_nil_nil] at hres
    exact Option.noConfusion hres
  unfold hetStep
  simp only [if_neg hnn, hres, if_neg hne]

/-- C2: the orientation flag is never written by a non-index engine call (nor
anywhere in the flanking region walk, which always calls the engine with
`index_var=False`); during the index call a phased sample's flag becomes true
exactly when maternal=alternate and paternal=reference; and on non-index
calls a phased sample's reported call is maternal-first precisely when its
stored flag is true, regardless of that variant's own pat/mat values. -/
theorem C2_orientation :
    (∀ (e : EngineIn) (samples unrelateds : List String) (oA : Bool) (rev : String → Bool),
      (parse_haplotypes e samples unrelateds oA false rev).rev = rev) ∧
    (∀ (cfg : WalkCfg) (vars : List Variant) (rev : String → Bool),
      (parse_region cfg vars rev).2 = rev) ∧
    (∀ (als : List String) (sgt : List (Option Nat)) (fgt mgt : List Nat)
        (revIn : Bool) (p m : Nat),
      resolvePatMat fgt mgt = some (p, m) → m ≠ p →
        ((hetStep als sgt fgt mgt false revIn).revOut = revIn ∧
         (hetStep als sgt fgt mgt true revIn).revOut = (revIn || (m == 1 && p == 0)) ∧
         (hetStep als sgt fgt mgt false revIn).call =
           (if revIn then getNat als m ++ "|" ++ getNat als p
            else getNat als p ++ "|" ++ getNat als m) ∧
         (hetStep als sgt fgt mgt false revIn).inPhase = some (if revIn then m else p))) := by
  refine ⟨parse_haplotypes_rev_false, parse_region_rev, ?_⟩
  intro als sgt fgt mgt revIn p m hres hne
  rw [hetStep_phased als sgt fgt mgt false revIn p m hres hne,
      hetStep_phased als sgt fgt mgt true revIn p m hres hne]
  refine ⟨by simp [phasedStep], ?_, by simp [phasedStep], by simp [phasedStep]⟩
  by_cases h : m = 1 ∧ p = 0
  · simp [phasedStep, h]
  · rcases not_and_or.mp h with h1 | h1 <;> simp [phasedStep, h, h1]

theorem C2_witness :
    (parse_haplotypes E4 ["c"] [] false false revInit).rev = revInit ∧
    (hetStep ["A", "G"] [some 0, some 1] [0, 0] [1, 1] true false).revOut =
      (false || ((1 : Nat) == 1 && (0 : Nat) == 0)) ∧
    (hetStep ["A", "G"] [some 0, some 1] [0, 0] [1, 1] false false).call =
      (if false then getNat ["A", "G"] 1 ++ "|" ++ getNat ["A", "G"] 0
       else getNat ["A", "G"] 0 ++ "|" ++ getNat ["A", "G"] 1) := by
  have h := C2_orientation
  have h3 := h.2.2 ["A", "G"] [some 0, some 1] [0, 0] [1, 1] false 0 1 (by decide) (by decide)
  exact ⟨h.1 E4 ["c"] [] false revInit, h3.2.1, h3.2.2.1⟩

lemma parse_haplotypes_some (e : EngineIn) (samples unrelateds : List String)
    (oA ix : Bool) (rev : String → Bool) (r : HapResult)
    (h : (parse_haplotypes e samples unrelateds oA ix rev).row = some r) :
    r = mkResult e samples unrelateds (engineState e samples ix rev) := by
  unfold parse_haplotypes at h
  split_ifs at h
  all_goals first
  | exact Option.noConfusion h
  | exact (Option.some_inj.mp h).symm

/-- C3: whenever the engine produces a row, `N_COMPAT >= N_IN_PHASE`; when no
dominant phase allele exists nothing is added (`N_COMPAT = N_IN_PHASE`); and
when a dominant allele exists every unphased no-call sample contributes to
`N_COMPAT`. -/
theorem C3_compat (e : EngineIn) (samples unrelateds : List String) (oA ix : Bool)
    (rev : String → Bool) (r : HapResult)
    (h : (parse_haplotypes e samples unrelateds oA ix rev).row = some r) :
    r.nInPhase ≤ r.nCompat ∧
    (pAlleleOf (engineState e samples ix rev) = none → r.nCompat = r.nInPhase) ∧
    (∀ p, pAlleleOf (engineState e samples ix rev) = some p →
      r.nInPhase + samples.countP
          (fun s => !(dmemB (engineState e samples ix rev).alleleInPhase s)
            && (engineState e samples ix rev).sampleNoCalls.contains s) ≤ r.nCompat) := by
  obtain rfl := parse_haplotypes_some e samples unrelateds oA ix rev r h
  set st := engineState e samples ix rev with hst
  refine ⟨?_, ?_, ?_⟩
  · simp only [mkResult, nCompatOf]
    exact Nat.le_add_right _ _
  · intro hp
    have hz : samples.countP (compatPred e st) = 0 := by
      rw [List.countP_eq_zero]
      intro s hs
      simp [compatPred, hp]
    simp [mkResult, nCompatOf, hz]
  · intro p hp
    have hmono : samples.countP
        (fun s => !(dmemB st.alleleInPhase s) && st.sampleNoCalls.contains s)
          ≤ samples.countP (compatPred e st) := by
      apply List.countP_mono_left
      intro s hs hpred
      rw [Bool.and_eq_true] at hpred
      have h2 : s ∈ st.sampleNoCalls := by simpa using hpred.2
      simp [compatPred, hp, hpred.1, h2]
    simp only [mkResult, nCompatOf]
    exact Nat.add_le_add_left hmono _

def gts3 : String → List (Option Nat) := fun x =>
  if x = "n" then [none, none] else [some 1, some 1]

def E3 : EngineIn :=
  ⟨⟨"1", 100, "rs1", ["A", "G"]⟩, gts3, fun _ _ => true, fun _ => none, fun _ => none⟩

theorem C3_witness :
    ∃ r, (parse_haplotypes E3 ["a", "b", "n"] [] false false revInit).row = some r ∧
      r.nInPhase ≤ r.nCompat ∧
      r.nInPhase + (["a", "b", "n"] : List String).countP
          (fun s => !(dmemB (engineState E3 ["a", "b", "n"] false revInit).alleleInPhase s)
            && (engineState E3 ["a", "b", "n"] false revInit).sampleNoCalls.contains s)
        ≤ r.nCompat := by
  refine ⟨_, rfl, ?_, ?_⟩
  · exact (C3_compat E3 ["a", "b", "n"] [] false false revInit _ rfl).1
  · exact (C3_compat E3 ["a", "b", "n"] [] false false revInit _ rfl).2.2 1 (by decide)

/-- C10: when at least one sample is phased but the phased samples tie between
reference-in-phase and alternate-in-phase, the row reports HAP as `?` while
`N_IN_PHASE` equals the tied per-allele count, which is strictly positive. -/
theorem C10_tie (e : EngineIn) (samples unrelateds : List String) (oA ix : Bool)
    (rev : String → Bool) (r : HapResult)
    (h : (parse_haplotypes e samples unrelateds oA ix rev).row = some r)
    (hne : phasedOf (engineState e samples ix rev) ≠ [])
    (htie : refPhase (engineState e samples ix rev) = altPhase (engineState e samples ix rev)) :
    r.hap = "?" ∧ r.nInPhase = refPhase (engineState e samples ix rev) ∧ 0 < r.nInPhase := by
  obtain rfl := parse_haplotypes_some e samples unrelateds oA ix rev r h
  set st := engineState e samples ix rev with hst
  have hpa : pAlleleOf st = none := by
    unfold pAlleleOf
    rw [htie]
    simp
  have hnip : nInPhaseOf st = refPhase st := by
    unfold nInPhaseOf
    rw [if_neg hne, htie]
    exact max_self _
  refine ⟨?_, ?_, ?_⟩
  · simp [mkResult, hpa]
  · simp [mkResult, hnip]
  · have hlen : 0 < (phasedOf st).length := List.length_pos.mpr hne
    have hcount : refPhase st ≤ (phasedOf st).length := by
      unfold refPhase
      exact List.count_le_length _ _
    unfold altPhase at htie
    simp only [mkResult, hnip]
    omega

def gts10 : String → List (Option Nat) := fun x =>
  if x = "a" then [some 0, some 0] else [some 1, some 1]

def E10 : EngineIn :=
  ⟨⟨"1", 100, "rs1", ["A", "G"]⟩, gts10, fun _ _ => true, fun _ => none, fun _ => none⟩

theorem C10_witness :
    ∃ r, (parse_haplotypes E10 ["a", "b"] [] false false revInit).row = some r ∧
      r.hap = "?" ∧ r.nInPhase = refPhase (engineState E10 ["a", "b"] false revInit) ∧
      0 < r.nInPhase := by
  refine ⟨_, rfl, ?_⟩
  exact C10_tie E10 ["a", "b"] [] false false revInit _ rfl (by decide) (by decide)

lemma dedup_all_eq {α : Type} [DecidableEq α] (l : List α) (a : α) (hne : l ≠ [])
    (h : ∀ x ∈ l, x = a) : l.dedup = [a] := by
  induction l with
  | nil => exact absurd rfl hne
  | cons b t ih =>
    have hb : b = a := h b (List.mem_cons_self ..)
    cases t with
    | nil => simp [hb]
    | cons c t2 =>
      have ht : (c :: t2).dedup = [a] :=
        ih (by simp) (fun x hx => h x (List.mem_cons_of_mem _ hx))
      have hmem : b ∈ c :: t2 := by
        rw [hb, show c = a from h c (by simp)]
        exact List.mem_cons_self ..
      rw [List.dedup_cons_of_mem hmem]
      exact ht

lemma phaseSample_noAlt (e : EngineIn) (ix r : Bool) (s : String)
    (hne : e.gts s ≠ [])
    (hvals : ∀ x ∈ e.gts s, x = none ∨ x = some 0 ∨ x = some 1)
    (hmiss : (none : Option Nat) ∈ e.gts s → ∀ x ∈ e.gts s, x = none)
    (hna : e.ok s 0 = true → e.ok s 1 = true → (some 1 : Option Nat) ∉ e.gts s) :
    (phaseSample e ix r s).hasAlt = false ∧ (phaseSample e ix r s).revOut = r := by
  simp only [phaseSample]
  split_ifs with hok h1 h2
  · exact ⟨rfl, rfl⟩
  · have halt : (some 1 : Option Nat) ∉ e.gts s := hna hok.1 hok.2
    refine ⟨?_, rfl⟩
    simpa [homStep] using halt
  · exfalso
    have hnone : (none : Option Nat) ∉ e.gts s := by
      intro hmem
      exact h2 (by rw [uniqCount, dedup_all_eq (e.gts s) none hne (hmiss hmem)]; rfl)
    have halt : (some 1 : Option Nat) ∉ e.gts s := hna hok.1 hok.2
    have hall0 : ∀ x ∈ e.gts s, x = some 0 := by
      intro x hx
      rcases hvals x hx with h | h | h
      · exact absurd (h ▸ hx) hnone
      · exact h
      · exact absurd (h ▸ hx) halt
    exact h2 (by rw [uniqCount, dedup_all_eq (e.gts s) (some 0) hne hall0]; rfl)
  · exact ⟨rfl, rfl⟩

lemma engineState_noAlt (e : EngineIn) (samples : List String) (ix : Bool)
    (rev : String → Bool)
    (hval : ∀ s ∈ samples, e.gts s ≠ [] ∧
      (∀ x ∈ e.gts s, x = none ∨ x = some 0 ∨ x = some 1) ∧
      ((none : Option Nat) ∈ e.gts s → ∀ x ∈ e.gts s, x = none))
    (hna : ∀ s ∈ samples, e.ok s 0 = true → e.ok s 1 = true →
      (some 1 : Option Nat) ∉ e.gts s) :
    (engineState e samples ix rev).sampleWithAlt = false ∧
    (engineState e samples ix rev).rev = rev := by
  unfold engineState
  suffices h : ∀ (l : List String),
      (∀ s ∈ l, e.gts s ≠ [] ∧
        (∀ x ∈ e.gts s, x = none ∨ x = some 0 ∨ x = some 1) ∧
        ((none : Option Nat) ∈ e.gts s → ∀ x ∈ e.gts s, x = none)) →
      (∀ s ∈ l, e.ok s 0 = true → e.ok s 1 = true → (some 1 : Option Nat) ∉ e.gts s) →
      ∀ st : LoopState, st.sampleWithAlt = false →
      ((l.foldl (fun st s => applyStep st s (phaseSample e ix (st.rev s) s)) st).sampleWithAlt
          = false ∧
       (l.foldl (fun st s => applyStep st s (phaseSample e ix (st.rev s) s)) st).rev
          = st.rev) by
    exact h samples hval hna (initState rev) rfl
  intro l
  induction l with
  | nil => exact fun _ _ st hst => ⟨hst, rfl⟩
  | cons a t ih =>
    intro hv hn st hst
    have hstep := phaseSample_noAlt e ix (st.rev a) a (hv a (by simp)).1
      (hv a (by simp)).2.1 (hv a (by simp)).2.2 (hn a (by simp))
    have hrec := ih (fun s hs => hv s (List.mem_cons_of_mem _ hs))
      (fun s hs => hn s (List.mem_cons_of_mem _ hs))
      (applyStep st a (phaseSample e ix (st.rev a) a))
      (by simp [applyStep, hst, hstep.1])
    refine ⟨hrec.1, ?_⟩
    rw [List.foldl_cons, hrec.2, applyStep_rev_eq]
    exact hstep.2

/-- C6: a variant that is not biallelic, whose two alleles differ in length,
or where no sample of interest carries the alternate allele admissibly makes
the engine return `None` with the orientation memory unchanged, and the
region walker writes no row for it. -/
theorem C6_reject (cfg : WalkCfg) (v : Variant) (ix : Bool) (rev : String → Bool)
    (hval : ∀ s ∈ cfg.samples, cfg.gts v s ≠ [] ∧
      (∀ x ∈ cfg.gts v s, x = none ∨ x = some 0 ∨ x = some 1) ∧
      ((none : Option Nat) ∈ cfg.gts v s → ∀ x ∈ cfg.gts v s, x = none))
    (hcond : v.alleles.length ≠ 2 ∨
      (v.alleles.getD 0 "").length ≠ (v.alleles.getD 1 "").length ∨
      (∀ s ∈ cfg.samples, cfg.ok v s 0 = true → cfg.ok v s 1 = true →
        (some 1 : Option Nat) ∉ cfg.gts v s)) :
    (parse_haplotypes (engineFor cfg v) cfg.samples cfg.unrelateds
      cfg.outputAlleles ix rev).row = none ∧
    (parse_haplotypes (engineFor cfg v) cfg.samples cfg.unrelateds
      cfg.outputAlleles ix rev).rev = rev ∧
    (processOne cfg rev v).out = none := by
  have key : ∀ ix2 : Bool,
      (parse_haplotypes (engineFor cfg v) cfg.samples cfg.unrelateds
        cfg.outputAlleles ix2 rev).row = none ∧
      (parse_haplotypes (engineFor cfg v) cfg.samples cfg.unrelateds
        cfg.outputAlleles ix2 rev).rev = rev := by
    intro ix2
    unfold parse_haplotypes
    split_ifs with h1 h2 h3
    · exact ⟨rfl, rfl⟩
    · exact ⟨rfl, rfl⟩
    · refine ⟨rfl, (engineState_noAlt (engineFor cfg v) cfg.samples ix2 rev hval ?_).2⟩
      rcases hcond with h | h | h
      · exact absurd h h1
      · exact absurd h h2
      · exact h
    · exfalso
      rcases hcond with h | h | h
      · exact h1 h
      · exact h2 h
      · exact h3 (engineState_noAlt (engineFor cfg v) cfg.samples ix2 rev hval h).1
  refine ⟨(key ix).1, (key ix).2, ?_⟩
  simp only [processOne]
  by_cases ha : cfg.avoid v = true
  · rw [if_pos ha]
  · rw [if_neg ha, (key false).1]

def cfg6 : WalkCfg :=
  { samples := ["a"]
    unrelateds := []
    gts := fun _ x => if x = "a" then [some 0, some 1] else [some 0, some 0]
    ok := fun _ _ _ => true
    father := fun _ => none
    mother := fun _ => none
    outputAlleles := false
    informativeOnly := false
    phasedInAll := false
    maxNoCalls := none
    minAF := none
    lookups := fun _ => []
    avoid := fun _ => false }

def v6 : Variant := ⟨"1", 50, "v6", ["A", "G", "T"]⟩

theorem C6_witness :
    (parse_haplotypes (engineFor cfg6 v6) cfg6.samples cfg6.unrelateds
      cfg6.outputAlleles true revInit).row = none ∧
    (processOne cfg6 revInit v6).out = none := by
  have h := C6_reject cfg6 v6 true revInit (by decide) (Or.inl (by decide))
  exact ⟨h.1, h.2.2⟩

/-- C7: with a minimum-other-allele-frequency threshold configured and
`N_COMPAT` equal to the number of samples of interest: a haplotype-is-REF row
for a variant absent from every database is suppressed; for a
haplotype-is-ALT row the other allele's frequency is `1 - AF` and for a
haplotype-is-REF row it is the looked-up `AF`; in both cases the row is
suppressed exactly when that value is below the threshold and otherwise
written with the three frequency fields appended. -/
theorem C7_freq_filter (row : List Cell) (v : Variant) (lookups : List (Option AFRecord))
    (y : Rat) (n : Nat)
    (hgate : row.get? 7 = some (Cell.nat n)) (hne : lookups ≠ []) :
    ((∀ l ∈ lookups, l = none) → row.get? 5 = some (Cell.str v.REF) →
      output_row row v lookups (some y) (some n) = none) ∧
    (∀ g : AFRecord, lookups = [some g] → row.get? 5 ≠ some (Cell.str v.REF) →
      ((1 - g.afVal < y → output_row row v lookups (some y) (some n) = none) ∧
       (¬(1 - g.afVal < y) →
         output_row row v lookups (some y) (some n) =
           some (row ++ [Cell.str g.afStr, Cell.str g.popAF, Cell.str g.popLabel])))) ∧
    (∀ g : AFRecord, lookups = [some g] → row.get? 5 = some (Cell.str v.REF) →
      ((g.afVal < y → output_row row v lookups (some y) (some n) = none) ∧
       (¬(g.afVal < y) →
         output_row row v lookups (some y) (some n) =
           some (row ++ [Cell.str g.afStr, Cell.str g.popAF, Cell.str g.popLabel])))) := by
  have hg : filterGate row (some y) (some n) = true := by
    unfold filterGate
    rw [hgate]
    simp
  refine ⟨?_, ?_, ?_⟩
  · intro hall hisRef
    have hR : rowIsRef row v = true := by
      unfold rowIsRef
      rw [hisRef]
      simp
    obtain ⟨l0, rest, rfl⟩ : ∃ l0 rest, lookups = l0 :: rest := by
      cases lookups with
      | nil => exact absurd rfl hne
      | cons a t => exact ⟨a, t, rfl⟩
    have hl0 : l0 = none := hall l0 (by simp)
    subst hl0
    simp [output_row, gnomadScan, hR, hg]
  · intro g hlk hnotRef
    subst hlk
    have hR : rowIsRef row v = false := by
      unfold rowIsRef
      exact decide_eq_false hnotRef
    constructor
    · intro hlt
      simp [output_row, gnomadScan, hR, hg, hlt]
    · intro hge
      simp [output_row, gnomadScan, hR, hg, hge, updBest, extFields]
  · intro g hlk hisRef
    subst hlk
    have hR : rowIsRef row v = true := by
      unfold rowIsRef
      rw [hisRef]
      simp
    constructor
    · intro hlt
      simp [output_row, gnomadScan, hR, hg, hlt]
    · intro hge
      simp [output_row, gnomadScan, hR, hg, hge, updBest, extFields]

def g7 : AFRecord := ⟨"0.4", 2/5, "0.5", "NFE"⟩

def v7 : Variant := ⟨"1", 5, "idA", ["A", "G"]⟩

def rowA : List Cell :=
  [Cell.str "1", Cell.nat 5, Cell.str "idA", Cell.str "A", Cell.str "G",
   Cell.str "A", Cell.nat 1, Cell.nat 1]

def rowB : List Cell :=
  [Cell.str "1", Cell.nat 5, Cell.str "idA", Cell.str "A", Cell.str "G",
   Cell.str "G", Cell.nat 1, Cell.nat 1]

theorem C7_witness :
    output_row rowA v7 [none] (some (1 / 100)) (some 1) = none ∧
    output_row rowB v7 [some g7] (some (1 / 100)) (some 1) =
      some (rowB ++ [Cell.str "0.4", Cell.str "0.5", Cell.str "NFE"]) := by
  constructor
  · exact (C7_freq_filter rowA v7 [none] (1 / 100) 1 rfl (by simp)).1
      (by intro l hl; simpa using hl) rfl
  · exact ((C7_freq_filter rowB v7 [some g7] (1 / 100) 1 rfl (by simp)).2.1 g7 rfl
      (by decide)).2 (by norm_num [g7])

lemma gnomadScan_off (isRef : Bool) (y : Rat) (L : List (Option AFRecord)) :
    ∀ best, gnomadScan isRef false y L best = some (L.foldl updBest best) := by
  induction L with
  | nil => intro best; rfl
  | cons l rest ih =>
    intro best
    simp [gnomadScan, ih]

lemma updBest_some_ne (best : Option AFRecord) (g : AFRecord) :
    updBest best (some g) ≠ none := by
  cases best with
  | none => simp [updBest]
  | some b =>
    simp only [updBest]
    split_ifs <;> simp

lemma foldl_updBest_some : ∀ (L : List (Option AFRecord)) (best : Option AFRecord),
    (best ≠ none ∨ L.reduceOption ≠ []) → ∃ m, L.foldl updBest best = some m
  | [], best, h => by
    rcases h with h | h
    · cases best with
      | none => exact absurd rfl h
      | some b => exact ⟨b, rfl⟩
    · exact absurd rfl h
  | none :: rest, best, h => by
    rw [List.foldl_cons]
    apply foldl_updBest_some rest (updBest best none)
    rcases h with h | h
    · exact Or.inl h
    · exact Or.inr (by simpa using h)
  | some g :: rest, best, _ => by
    rw [List.foldl_cons]
    exact foldl_updBest_some rest (updBest best (some g))
      (Or.inl (updBest_some_ne best g))

lemma foldl_updBest_spec : ∀ (L : List (Option AFRecord)) (best : Option AFRecord)
    (m : AFRecord), L.foldl updBest best = some m →
    (∀ g ∈ L.reduceOption, g.afStr ≤ m.afStr) ∧
    (best = some m ∨ m ∈ L.reduceOption) ∧
    (∀ b, best = some b → b.afStr ≤ m.afStr)
  | [], best, m, h => by
    refine ⟨by simp, Or.inl h, ?_⟩
    intro b hb
    rw [hb] at h
    rw [Option.some_inj.mp h]
  | none :: rest, best, m, h => by
    rw [List.foldl_cons] at h
    obtain ⟨h1, h2, h3⟩ := foldl_updBest_spec rest (updBest best none) m h
    refine ⟨by simpa using h1, ?_, h3⟩
    rcases h2 with h2 | h2
    · exact Or.inl h2
    · exact Or.inr (by simpa using h2)
  | some g :: rest, best, m, h => by
    rw [List.foldl_cons] at h
    obtain ⟨h1, h2, h3⟩ := foldl_updBest_spec rest (updBest best (some g)) m h
    have hgm : g.afStr ≤ m.afStr := by
      cases best with
      | none => exact h3 g rfl
      | some b =>
        by_cases hlt : b.afStr < g.afStr
        · exact h3 g (by simp [updBest, hlt])
        · exact le_trans (not_lt.mp hlt) (h3 b (by simp [updBest, hlt]))
    refine ⟨?_, ?_, ?_⟩
    · intro g2 hg2
      rcases (by simpa using hg2 : g2 = g ∨ g2 ∈ rest.reduceOption) with h | h
      · exact h ▸ hgm
      · exact h1 g2 h
    · rcases h2 with h2 | h2
      · cases best with
        | none =>
          exact Or.inr (by simp [show g = m from Option.some_inj.mp (by simpa [updBest] using h2)])
        | some b =>
          by_cases hlt : b.afStr < g.afStr
          · refine Or.inr ?_
            have : g = m := Option.some_inj.mp (by simpa [updBest, hlt] using h2)
            simp [this]
          · refine Or.inl ?_
            have : b = m := Option.some_inj.mp (by simpa [updBest, hlt] using h2)
            rw [this]
      · exact Or.inr (by simp [h2])
    · intro b0 hb0
      subst hb0
      by_cases hlt : b0.afStr < g.afStr
      · exact le_trans (le_of_lt hlt) (h3 g (by simp [updBest, hlt]))
      · exact h3 b0 (by simp [updBest, hlt])

def gBig : AFRecord := ⟨"0.5", 1 / 2, "0.6", "NFE"⟩

def gSci : AFRecord := ⟨"9e-05", 9 / 100000, "1e-04", "AFR"⟩

def v9 : Variant := ⟨"1", 7, "id9", ["A", "G"]⟩

def row9 : List Cell :=
  [Cell.str "1", Cell.nat 7, Cell.str "id9", Cell.str "A", Cell.str "G",
   Cell.str "G", Cell.nat 1, Cell.nat 1]

/-- C9: counterexample.  With two databases returning AF strings "0.5" and
"9e-05", the code appends the fields of the "9e-05" record (string-wise the
larger, since `max_af < af` compares python strings), although its numeric
frequency is smaller - so the appended fields are not those of the numeric
maximum. -/
theorem C9_counterexample :
    output_row row9 v9 [some gBig, some gSci] none none =
      some (row9 ++ [Cell.str "9e-05", Cell.str "1e-04", Cell.str "AFR"]) ∧
    gSci.afVal < gBig.afVal := by
  have hlt : gBig.afStr < gSci.afStr := by
    show ("0.5" : String) < "9e-05"
    rw [String.lt_iff_toList_lt]
    decide
  constructor
  · have hfg : filterGate row9 none none = false := by simp [filterGate]
    unfold output_row
    rw [if_neg (by simp), hfg, gnomadScan_off]
    have hfold : ([some gBig, some gSci] : List (Option AFRecord)).foldl updBest none
        = some gSci := by
      simp [updBest, hlt]
    rw [hfold]
    rfl
  · show (9 / 100000 : Rat) < 1 / 2
    norm_num

/-- C9 (amended): across multiple databases the three appended fields are
those of the record whose overall-AF *string* is greatest in lexicographic
string order among all records found (ties keep the earlier database); this
coincides with the numeric maximum for plain fixed-point decimals but not in
general. -/
theorem C9_amended_lexmax (row : List Cell) (v : Variant)
    (lookups : List (Option AFRecord)) (ns : Option Nat)
    (hne : lookups ≠ []) (hpres : lookups.reduceOption ≠ []) :
    ∃ m, m ∈ lookups.reduceOption ∧ (∀ g ∈ lookups.reduceOption, g.afStr ≤ m.afStr) ∧
      output_row row v lookups none ns =
        some (row ++ [Cell.str m.afStr, Cell.str m.popAF, Cell.str m.popLabel]) := by
  have hfg : filterGate row none ns = false := by simp [filterGate]
  obtain ⟨m, hm⟩ := foldl_updBest_some lookups none (Or.inr hpres)
  obtain ⟨h1, h2, h3⟩ := foldl_updBest_spec lookups none m hm
  refine ⟨m, ?_, h1, ?_⟩
  · rcases h2 with h | h
    · exact Option.noConfusion h
    · exact h
  · unfold output_row
    rw [if_neg hne, hfg, gnomadScan_off, hm]
    rfl

theorem C9_amended_witness :
    ∃ m, m ∈ ([some gBig, some gSci] : List (Option AFRecord)).reduceOption ∧
      (∀ g ∈ ([some gBig, some gSci] : List (Option AFRecord)).reduceOption,
        g.afStr ≤ m.afStr) ∧
      output_row row9 v9 [some gBig, some gSci] none none =
        some (row9 ++ [Cell.str m.afStr, Cell.str m.popAF, Cell.str m.popLabel]) :=
  C9_amended_lexmax row9 v9 [some gBig, some gSci] none (by simp) (by simp)

lemma output_row_shape (row : List Cell) (v : Variant) (lookups : List (Option AFRecord))
    (mAF : Option Rat) (ns : Option Nat) (row' : List Cell)
    (h : output_row row v lookups mAF ns = some row') :
    row' = row ∨ ∃ b, row' = row ++ extFields b := by
  unfold output_row at h
  split_ifs at h with h1
  · exact Or.inl (Option.some_inj.mp h).symm
  · cases hscan : gnomadScan (rowIsRef row v) (filterGate row mAF ns) (mAF.getD 0)
        lookups none with
    | none =>
      rw [hscan] at h
      exact Option.noConfusion h
    | some best =>
      rw [hscan] at h
      exact Or.inr ⟨best, (Option.some_inj.mp h).symm⟩

lemma output_row_minAF_none (row : List Cell) (v : Variant)
    (lookups : List (Option AFRecord)) (ns : Option Nat) :
    ∃ row', output_row row v lookups none ns = some row' := by
  unfold output_row
  split_ifs with h1
  · exact ⟨row, rfl⟩
  · rw [show filterGate row none ns = false from by simp [filterGate], gnomadScan_off]
    exact ⟨_, rfl⟩

lemma rowPos_append (row ext : List Cell) (h : 1 < row.length) :
    rowPos (row ++ ext) = rowPos row := by
  unfold rowPos
  rw [List.get?_append h]

lemma rowPos_mainRow (oA : Bool) (r : HapResult) : rowPos (mainRow oA r) = r.pos := rfl

lemma mainRow_len1 (oA : Bool) (r : HapResult) : 1 < (mainRow oA r).length := by
  simp [mainRow]

lemma mainRow_len2 (oA : Bool) (r : HapResult) : 2 < (mainRow oA r).length := by
  simp [mainRow]

lemma mainRow_get2 (oA : Bool) (r : HapResult) :
    (mainRow oA r).get? 2 = some (Cell.str r.id) := rfl

lemma processOne_out_shape (cfg : WalkCfg) (rev : String → Bool) (v : Variant)
    (row' : List Cell) (h : (processOne cfg rev v).out = some row') :
    ∃ r, (parse_haplotypes (engineFor cfg v) cfg.samples cfg.unrelateds
        cfg.outputAlleles false rev).row = some r ∧
      output_row (mainRow cfg.outputAlleles r) v (cfg.lookups v) cfg.minAF
        (some cfg.samples.length) = some row' := by
  simp only [processOne] at h
  by_cases ha : cfg.avoid v = true
  · rw [if_pos ha] at h
    exact Option.noConfusion h
  · rw [if_neg ha] at h
    cases hrow : (parse_haplotypes (engineFor cfg v) cfg.samples cfg.unrelateds
        cfg.outputAlleles false rev).row with
    | none =>
      rw [hrow] at h
      exact Option.noConfusion h
    | some r =>
      rw [hrow] at h
      dsimp only at h
      split_ifs at h
      all_goals first
      | exact Option.noConfusion h
      | exact ⟨r, rfl, h⟩

lemma processOne_pos (cfg : WalkCfg) (rev : String → Bool) (v : Variant)
    (row' : List Cell) (h : (processOne cfg rev v).out = some row') :
    rowPos row' = v.pos := by
  obtain ⟨r, hrow, hout⟩ := processOne_out_shape cfg rev v row' h
  have hr := parse_haplotypes_some _ _ _ _ _ _ _ hrow
  rcases output_row_shape _ _ _ _ _ _ hout with h2 | ⟨b, h2⟩
  · rw [h2, rowPos_mainRow, hr]
    rfl
  · rw [h2, rowPos_append _ _ (mainRow_len1 ..), rowPos_mainRow, hr]
    rfl

lemma parse_region_pos_sublist (cfg : WalkCfg) :
    ∀ (vars : List Variant) (rev : String → Bool),
      ((parse_region cfg vars rev).1.map rowPos).Sublist (vars.map Variant.pos)
  | [], rev => by simp [parse_region]
  | v :: vs, rev => by
    simp only [parse_region, List.map_cons]
    cases hout : (processOne cfg rev v).out with
    | none =>
      simp only [hout, Option.toList_none, List.nil_append]
      exact (parse_region_pos_sublist cfg vs _).cons _
    | some row' =>
      simp only [hout, Option.toList_some, List.singleton_append, List.map_cons,
        processOne_pos cfg rev v row' hout]
      exact (parse_region_pos_sublist cfg vs _).cons₂ _

/-- C8: the full scan's rows are exactly the left flank's rows (one per
variant, in source order), then the index row (identifier suffixed
`|INDEX`), then the right flank's rows; and when the record source yields
each region position-sorted and inside its window, the positions of the
written rows are ascending. -/
theorem C8_ordering (cfg : WalkCfg) (idxVar : Variant) (leftVars rightVars : List Variant)
    (r : HapResult) (hidx : (indexOut cfg idxVar).row = some r)
    (hLs : List.Pairwise (· ≤ ·) (leftVars.map Variant.pos))
    (hLb : ∀ v ∈ leftVars, v.pos < idxVar.pos)
    (hRs : List.Pairwise (· ≤ ·) (rightVars.map Variant.pos))
    (hRb : ∀ v ∈ rightVars, idxVar.pos < v.pos) :
    ∃ iRow, vcf_to_hap_rows cfg idxVar leftVars rightVars =
        (leftStage cfg idxVar leftVars).1 ++ iRow ::
          (rightStage cfg idxVar leftVars rightVars).1 ∧
      iRow.get? 2 = some (Cell.str (r.id ++ "|INDEX")) ∧
      rowPos iRow = idxVar.pos ∧
      List.Pairwise (· ≤ ·)
        ((vcf_to_hap_rows cfg idxVar leftVars rightVars).map rowPos) := by
  obtain ⟨iRow, hiRow⟩ := output_row_minAF_none (mainRow false (withIndexId r)) idxVar
    (cfg.lookups idxVar) none
  have hr := parse_haplotypes_some _ _ _ _ _ _ r hidx
  have hpos : rowPos iRow = idxVar.pos := by
    rcases output_row_shape _ _ _ _ _ _ hiRow with h2 | ⟨b, h2⟩
    · rw [h2, rowPos_mainRow, hr]
      rfl
    · rw [h2, rowPos_append _ _ (mainRow_len1 ..), rowPos_mainRow, hr]
      rfl
  have hid : iRow.get? 2 = some (Cell.str (r.id ++ "|INDEX")) := by
    rcases output_row_shape _ _ _ _ _ _ hiRow with h2 | ⟨b, h2⟩
    · rw [h2, mainRow_get2]
      rfl
    · rw [h2, List.get?_append (mainRow_len2 ..), mainRow_get2]
      rfl
  have heq : vcf_to_hap_rows cfg idxVar leftVars rightVars =
      (leftStage cfg idxVar leftVars).1 ++ iRow ::
        (rightStage cfg idxVar leftVars rightVars).1 := by
    unfold vcf_to_hap_rows
    rw [hidx]
    dsimp only
    rw [hiRow]
    simp
  refine ⟨iRow, heq, hid, hpos, ?_⟩
  rw [heq, List.map_append, List.map_cons, List.pairwise_append]
  refine ⟨List.Pairwise.sublist (parse_region_pos_sublist cfg leftVars _) hLs, ?_, ?_⟩
  · rw [List.pairwise_cons]
    constructor
    · intro b hb
      have hmem : b ∈ rightVars.map Variant.pos :=
        (parse_region_pos_sublist cfg rightVars _).subset hb
      obtain ⟨v2, hv2, rfl⟩ := List.mem_map.mp hmem
      rw [hpos]
      exact le_of_lt (hRb v2 hv2)
    · exact List.Pairwise.sublist (parse_region_pos_sublist cfg rightVars _) hRs
  · intro a ha b hb
    have hmemA : a ∈ leftVars.map Variant.pos :=
      (parse_region_pos_sublist cfg leftVars _).subset ha
    obtain ⟨v1, hv1, rfl⟩ := List.mem_map.mp hmemA
    have haidx : v1.pos ≤ idxVar.pos := le_of_lt (hLb v1 hv1)
    rcases List.mem_cons.mp hb with hb | hb
    · rw [hb, hpos]
      exact haidx
    · have hmemB : b ∈ rightVars.map Variant.pos :=
        (parse_region_pos_sublist cfg rightVars _).subset hb
      obtain ⟨v2, hv2, rfl⟩ := List.mem_map.mp hmemB
      exact le_of_lt (lt_of_le_of_lt haidx (hRb v2 hv2))

def cfg8 : WalkCfg :=
  { samples := ["c"]
    unrelateds := []
    gts := fun _ x => if x = "c" then [some 1, some 1] else [some 0, some 0]
    ok := fun _ _ _ => true
    father := fun _ => none
    mother := fun _ => none
    outputAlleles := false
    informativeOnly := false
    phasedInAll := false
    maxNoCalls := none
    minAF := none
    lookups := fun _ => []
    avoid := fun _ => false }

def idx8 : Variant := ⟨"1", 100, "rs8", ["A", "G"]⟩

def v8r : Variant := ⟨"1", 150, "v8r", ["A", "C"]⟩

theorem C8_witness :
    ∃ r iRow, (indexOut cfg8 idx8).row = some r ∧
      vcf_to_hap_rows cfg8 idx8 [] [v8r] =
        (leftStage cfg8 idx8 []).1 ++ iRow :: (rightStage cfg8 idx8 [] [v8r]).1 ∧
      iRow.get? 2 = some (Cell.str (r.id ++ "|INDEX")) ∧
      rowPos iRow = idx8.pos ∧
      List.Pairwise (· ≤ ·) ((vcf_to_hap_rows cfg8 idx8 [] [v8r]).map rowPos) := by
  obtain ⟨iRow, h1, h2, h3, h4⟩ := C8_ordering cfg8 idx8 [] [v8r] _ rfl (by simp)
    (by simp) (by simp) (by decide)
  exact ⟨_, iRow, rfl, h1, h2, h3, h4⟩
